import Mathlib

/-!
Verification development for the planner store of this repository.

The embedded code lives in `src/unnamed/part_003` (the zustand planner
store) and `src/unnamed/part_002` (the entity types and constants).

Modelling conventions:
* ISO-8601 timestamp strings are modelled by their epoch value in
  milliseconds (`Int`).  The repository runs `date-fns` helpers
  (`startOfDay`, `subDays`) and `Date.toISOString` in a fixed-offset
  clock; time-zone/DST subtleties are out of scope per the spec's
  non-goals, so one calendar day is a fixed 86400000 ms.
* A `YYYY-MM-DD` date string is modelled by its day number
  (`timestamp / 86400000`, floor division), which preserves equality
  and lexicographic order of the date strings.
* Impure inputs (`generateId()`, `new Date()`) are passed in as explicit
  oracle arguments; each separate `new Date()` read in the source is a
  separate argument.
* JS truthiness on `log.duration` (`!log.duration`) is `false` exactly
  for an absent duration and for the number 0.
-/

set_option maxHeartbeats 1000000

namespace Planner

/-- Task status from `src/unnamed/part_002` line 1:
`'pending' | 'in-progress' | 'completed' | 'archived'`. -/
inductive PlannerItemStatus where
  | pending
  | inProgress
  | completed
  | archived
deriving DecidableEq

/-- Task priority from `src/unnamed/part_002` line 3. -/
inductive PlannerItemPriority where
  | low
  | medium
  | high
  | urgent
deriving DecidableEq

/-- Task category from `src/unnamed/part_002` line 5. -/
inductive PlannerCategory where
  | today
  | upcoming
  | habits
deriving DecidableEq

/-- Recurrence pattern from `src/unnamed/part_002` line 7. -/
inductive RecurrencePattern where
  | daily
  | weekly
  | monthly
  | custom
deriving DecidableEq

/-- `RecurrenceRule` from `src/unnamed/part_002` lines 9-14. -/
structure RecurrenceRule where
  pattern : RecurrencePattern
  interval : Option Int
  daysOfWeek : Option (List Int)
  endDate : Option Int
deriving DecidableEq

/-- `PlannerItem` from `src/unnamed/part_002` lines 16-33.  Timestamp
strings are epoch milliseconds, date strings are epoch milliseconds as
well (`scheduledDate`, `dueDate` are opaque to every operation we model,
so only equality matters for them). -/
structure PlannerItem where
  id : String
  title : String
  description : Option String
  status : PlannerItemStatus
  priority : PlannerItemPriority
  category : PlannerCategory
  dueDate : Option Int
  scheduledDate : Option Int
  estimatedDuration : Option Int
  tags : Option (List String)
  recurrence : Option RecurrenceRule
  isEditing : Option Bool
  createdAt : Int
  updatedAt : Int
  completedAt : Option Int
  order : Int
deriving DecidableEq

/-- `TimeLog` from `src/unnamed/part_002` lines 35-44.  `endTime = none`
models an absent end timestamp (an active log). -/
structure TimeLog where
  id : String
  plannerId : String
  startTime : Int
  endTime : Option Int
  duration : Option Int
  notes : Option String
  createdAt : Int
  updatedAt : Int
deriving DecidableEq

/-- `DayAggregate` from `src/unnamed/part_002` lines 46-51; `date` is the
day number of the `YYYY-MM-DD` bucket key. -/
structure DayAggregate where
  date : Int
  totalDuration : Int
  itemCount : Nat
  logs : List TimeLog
deriving DecidableEq

/-- `PLANNER_CONSTANTS.MAX_TITLE_LENGTH` from `src/unnamed/part_002`
line 71.  Defined by the repository but never read by the store. -/
def MAX_TITLE_LENGTH : Nat := 200

/-- `PLANNER_CONSTANTS.MAX_DESCRIPTION_LENGTH` from `src/unnamed/part_002`
line 72.  Defined by the repository but never read by the store. -/
def MAX_DESCRIPTION_LENGTH : Nat := 2000

/-- Milliseconds in one calendar day (fixed-offset model). -/
def msPerDay : Int := 86400000

/-- Day number of a timestamp: models `t.toISOString().split('T')[0]`
(and equally `startTime.split('T')[0]` on an ISO string), i.e. the
calendar-day key of `t`, as floor division by `msPerDay`. -/
def dayKey (t : Int) : Int := Int.fdiv t msPerDay

/-- Models `date-fns` `startOfDay`: local midnight of the day of `t`. -/
def startOfDay (t : Int) : Int := dayKey t * msPerDay

/-- `calculateDuration` from `src/unnamed/part_003` lines 52-56:
`Math.round((end.getTime() - start.getTime()) / 1000)`.  JS `Math.round x`
is `Int.fdiv (x + 1/2)` scaled, i.e. `(d + 500).fdiv 1000` on an integer
millisecond difference `d` (ties round toward positive infinity, exactly
what `Math.round` does, including on negative values). -/
def calculateDuration (startTime endTime : Int) : Int :=
  Int.fdiv (endTime - startTime + 500) 1000

/-- `getDatesBetween` from `src/unnamed/part_003` lines 58-68: pushes the
day key of `current` and advances `current` by one calendar day while
`current <= endDate` (the loop guard is
`isBefore(current, endDate) || current.getTime() === endDate.getTime()`). -/
def getDatesBetween (startDate endDate : Int) : List Int :=
  if startDate ≤ endDate then
    dayKey startDate :: getDatesBetween (startDate + msPerDay) endDate
  else
    []
termination_by (endDate + msPerDay - startDate).toNat
decreasing_by simp_wf; simp only [msPerDay] at *; omega

/-- JS truthiness of `log.duration` as used in `if (!log.duration) return`
(`src/unnamed/part_003` lines 264 and 314): false for an absent duration
and for the number 0. -/
def durationTruthy : Option Int → Bool
  | none => false
  | some d => !(d == 0)

/-- Models `new Set(logs.map(l => l.plannerId)).size`
(`src/unnamed/part_003` lines 321-322): the number of distinct owning
task ids among `logs`. -/
def distinctItems (logs : List TimeLog) : Nat :=
  ((logs.map (fun l => l.plannerId)).dedup).length

/-- One iteration of the `logs.forEach` body of `getDayAggregates`
(`src/unnamed/part_003` lines 313-324): skip falsy durations, otherwise
add the log to the bucket whose date equals the log's start-day key (the
`if (aggregateMap[logDateStr])` guard means a log whose day is not a
window bucket is dropped).  The bucket record is an association list in
date order, faithfully modelling the string-keyed `aggregateMap` object
(its keys, non-numeric strings, keep insertion order and are distinct). -/
def addLogToAggregates (aggs : List DayAggregate) (log : TimeLog) : List DayAggregate :=
  if durationTruthy log.duration then
    aggs.map (fun a =>
      if a.date == dayKey log.startTime then
        { date := a.date
          totalDuration := a.totalDuration + log.duration.getD 0
          itemCount := distinctItems (a.logs ++ [log])
          logs := a.logs ++ [log] }
      else a)
  else aggs

/-- Stable insertion used to model `Array.prototype.sort` (which is
required to be stable): `le a b = true` means the comparator allows `a`
before `b`. -/
def stableInsert (le : α → α → Bool) (a : α) : List α → List α
  | [] => [a]
  | b :: bs => if le a b then a :: b :: bs else b :: stableInsert le a bs

/-- Stable sort modelling `Array.prototype.sort` with comparator-induced
relation `le`. -/
def stableSort (le : α → α → Bool) : List α → List α
  | [] => []
  | a :: as => stableInsert le a (stableSort le as)

/-- A typed rendering of TypeScript `Partial<PlannerItem>` as passed to
`updateItem` (`src/unnamed/part_003` line 100): for each `PlannerItem`
field, `some v` means the key is present in the update object (possibly
with value `undefined`, hence the nested `Option` on optional fields) and
`none` means the key is absent.  The spread `{ ...item, ...updates,
updatedAt: now }` always overwrites `updatedAt` last, so a supplied
`updatedAt` key is ignored by `applyUpdates`. -/
structure ItemUpdates where
  id : Option String := none
  title : Option String := none
  description : Option (Option String) := none
  status : Option PlannerItemStatus := none
  priority : Option PlannerItemPriority := none
  category : Option PlannerCategory := none
  dueDate : Option (Option Int) := none
  scheduledDate : Option (Option Int) := none
  estimatedDuration : Option (Option Int) := none
  tags : Option (Option (List String)) := none
  recurrence : Option (Option RecurrenceRule) := none
  isEditing : Option (Option Bool) := none
  createdAt : Option Int := none
  updatedAt : Option Int := none
  completedAt : Option (Option Int) := none
  order : Option Int := none
deriving DecidableEq

/-- Object spread of two update objects, second one winning, used to model
literals such as `{ isEditing: false, [field]: value }` where the
computed key may collide with `isEditing`. -/
def mergeUpdates (a b : ItemUpdates) : ItemUpdates where
  id := b.id <|> a.id
  title := b.title <|> a.title
  description := b.description <|> a.description
  status := b.status <|> a.status
  priority := b.priority <|> a.priority
  category := b.category <|> a.category
  dueDate := b.dueDate <|> a.dueDate
  scheduledDate := b.scheduledDate <|> a.scheduledDate
  estimatedDuration := b.estimatedDuration <|> a.estimatedDuration
  tags := b.tags <|> a.tags
  recurrence := b.recurrence <|> a.recurrence
  isEditing := b.isEditing <|> a.isEditing
  createdAt := b.createdAt <|> a.createdAt
  updatedAt := b.updatedAt <|> a.updatedAt
  completedAt := b.completedAt <|> a.completedAt
  order := b.order <|> a.order

/-- The merge `{ ...item, ...updates, updatedAt: new Date().toISOString() }`
from `src/unnamed/part_003` line 104. -/
def applyUpdates (it : PlannerItem) (u : ItemUpdates) (now : Int) : PlannerItem where
  id := u.id.getD it.id
  title := u.title.getD it.title
  description := u.description.getD it.description
  status := u.status.getD it.status
  priority := u.priority.getD it.priority
  category := u.category.getD it.category
  dueDate := u.dueDate.getD it.dueDate
  scheduledDate := u.scheduledDate.getD it.scheduledDate
  estimatedDuration := u.estimatedDuration.getD it.estimatedDuration
  tags := u.tags.getD it.tags
  recurrence := u.recurrence.getD it.recurrence
  isEditing := u.isEditing.getD it.isEditing
  createdAt := u.createdAt.getD it.createdAt
  updatedAt := now
  completedAt := u.completedAt.getD it.completedAt
  order := u.order.getD it.order

/-- `InlineEditMetadata` from `src/unnamed/part_002` lines 63-67.  The
dynamic pair `field : keyof PlannerItem, originalValue : unknown` is
modelled by the single-field partial update it induces when the edit is
rolled back (`{ [metadata.field]: metadata.originalValue }`). -/
structure InlineEditMetadata where
  itemId : String
  restore : ItemUpdates
deriving DecidableEq

/-- The persisted store state of `usePlannerStore`
(`src/unnamed/part_003` lines 72-75). -/
structure PlannerState where
  items : List PlannerItem
  timeLogs : List TimeLog
  inlineEditMetadata : Option InlineEditMetadata
deriving DecidableEq

/-- The initial store state (`items: [], timeLogs: [],
inlineEditMetadata: null`). -/
def emptyState : PlannerState where
  items := []
  timeLogs := []
  inlineEditMetadata := none

/-- The argument record of `createItem`:
`Omit<PlannerItem, 'id' | 'createdAt' | 'updatedAt' | 'order'>`. -/
structure ItemData where
  title : String
  description : Option String
  status : PlannerItemStatus
  priority : PlannerItemPriority
  category : PlannerCategory
  dueDate : Option Int
  scheduledDate : Option Int
  estimatedDuration : Option Int
  tags : Option (List String)
  recurrence : Option RecurrenceRule
  isEditing : Option Bool
  completedAt : Option Int
deriving DecidableEq

/-- `createItem` from `src/unnamed/part_003` lines 77-98: computes
`maxOrder` over existing items of the same category (`-1` when there are
none), builds the new item with generated id, `createdAt = updatedAt =
now` and `order = maxOrder + 1`, appends it, and returns it.  `newId` is
the `generateId()` oracle; `now` the single `new Date()` read. -/
def createItem (s : PlannerState) (d : ItemData) (newId : String) (now : Int) :
    PlannerItem × PlannerState :=
  let categoryItems := s.items.filter (fun it => it.category == d.category)
  let maxOrder : Int :=
    match categoryItems.map (fun it => it.order) with
    | [] => -1
    | o :: os => os.foldl max o
  let newItem : PlannerItem :=
    { id := newId
      title := d.title
      description := d.description
      status := d.status
      priority := d.priority
      category := d.category
      dueDate := d.dueDate
      scheduledDate := d.scheduledDate
      estimatedDuration := d.estimatedDuration
      tags := d.tags
      recurrence := d.recurrence
      isEditing := d.isEditing
      createdAt := now
      updatedAt := now
      completedAt := d.completedAt
      order := maxOrder + 1 }
  (newItem, { s with items := s.items ++ [newItem] })

/-- `updateItem` from `src/unnamed/part_003` lines 100-108: merges the
partial update into the matching item and refreshes `updatedAt`. -/
def updateItem (s : PlannerState) (id : String) (u : ItemUpdates) (now : Int) :
    PlannerState :=
  { s with items := s.items.map (fun it =>
      if it.id == id then applyUpdates it u now else it) }

/-- `deleteItem` from `src/unnamed/part_003` lines 110-115: removes the
item and every time log whose `plannerId` equals the deleted id. -/
def deleteItem (s : PlannerState) (id : String) : PlannerState :=
  { s with
    items := s.items.filter (fun it => it.id != id)
    timeLogs := s.timeLogs.filter (fun log => log.plannerId != id) }

/-- `toggleStatus` from `src/unnamed/part_003` lines 131-145: sets the
status, refreshes `updatedAt`, and stamps `completedAt` only on a
transition to `completed`. -/
def toggleStatus (s : PlannerState) (id : String) (status : PlannerItemStatus)
    (now : Int) : PlannerState :=
  { s with items := s.items.map (fun it =>
      if it.id == id then
        { it with
          status := status
          updatedAt := now
          completedAt := if status == .completed then some now else it.completedAt }
      else it) }

/-- `updateSchedule` from `src/unnamed/part_003` lines 147-149. -/
def updateSchedule (s : PlannerState) (id : String)
    (scheduledDate dueDate : Option Int) (now : Int) : PlannerState :=
  updateItem s id { scheduledDate := some scheduledDate, dueDate := some dueDate } now

/-- `reorderItems` from `src/unnamed/part_003` lines 151-163:
`itemIds.indexOf(item.id)` is modelled by `List.findIdx?`. -/
def reorderItems (s : PlannerState) (category : PlannerCategory)
    (itemIds : List String) (now : Int) : PlannerState :=
  { s with items := s.items.map (fun it =>
      if it.category == category then
        match itemIds.findIdx? (fun x => x == it.id) with
        | some n => { it with order := (n : Int), updatedAt := now }
        | none => it
      else it) }

/-- `startEdit` from `src/unnamed/part_003` lines 165-170: records the
pending-edit metadata, then flags the item as editing. -/
def startEdit (s : PlannerState) (itemId : String) (restore : ItemUpdates)
    (now : Int) : PlannerState :=
  updateItem { s with inlineEditMetadata := some ⟨itemId, restore⟩ }
    itemId { isEditing := some (some true) } now

/-- `cancelEdit` from `src/unnamed/part_003` lines 172-181: rolls the
edited field back (`{ isEditing: false, [field]: originalValue }`) and
clears the metadata; a no-op when no edit is pending. -/
def cancelEdit (s : PlannerState) (now : Int) : PlannerState :=
  match s.inlineEditMetadata with
  | some m =>
      { updateItem s m.itemId
          (mergeUpdates { isEditing := some (some false) } m.restore) now with
        inlineEditMetadata := none }
  | none => s

/-- `commitEdit` from `src/unnamed/part_003` lines 183-189: writes the
edited field (`{ isEditing: false, [field]: value }`) and clears the
metadata. -/
def commitEdit (s : PlannerState) (itemId : String) (fieldValue : ItemUpdates)
    (now : Int) : PlannerState :=
  { updateItem s itemId
      (mergeUpdates { isEditing := some (some false) } fieldValue) now with
    inlineEditMetadata := none }

/-- The predicate of the `find` in `getActiveTimeLog`
(`src/unnamed/part_003` lines 232-236):
`log.plannerId === plannerId && !log.endTime`. -/
def activePred (plannerId : String) (log : TimeLog) : Bool :=
  log.plannerId == plannerId && log.endTime.isNone

/-- `getActiveTimeLog` from `src/unnamed/part_003` lines 232-236. -/
def getActiveTimeLog (s : PlannerState) (plannerId : String) : Option TimeLog :=
  s.timeLogs.find? (activePred plannerId)

/-- `endTimeLog` from `src/unnamed/part_003` lines 216-230: closes the
log with the given id when it is still open, computing its duration. -/
def endTimeLog (s : PlannerState) (logId : String) (now : Int) : PlannerState :=
  { s with timeLogs := s.timeLogs.map (fun log =>
      if log.id == logId && log.endTime.isNone then
        { log with
          endTime := some now
          duration := some (calculateDuration log.startTime now)
          updatedAt := now }
      else log) }

/-- `startTimeLog` from `src/unnamed/part_003` lines 191-214: ends any
active log of the task first, appends a fresh open log, then marks the
task `in-progress`.  `newId` is the `generateId()` oracle; `t1`, `t2`,
`t3` are the three successive `new Date()` reads (inside `endTimeLog`,
for the new log, and inside `updateItem`). -/
def startTimeLog (s : PlannerState) (plannerId : String) (notes : Option String)
    (newId : String) (t1 t2 t3 : Int) : TimeLog × PlannerState :=
  let s1 := match getActiveTimeLog s plannerId with
    | some l => endTimeLog s l.id t1
    | none => s
  let newLog : TimeLog :=
    { id := newId
      plannerId := plannerId
      startTime := t2
      endTime := none
      duration := none
      notes := notes
      createdAt := t2
      updatedAt := t2 }
  let s2 := { s1 with timeLogs := s1.timeLogs ++ [newLog] }
  (newLog, updateItem s2 plannerId { status := some .inProgress } t3)

/-- `getTimeLogsByItem` from `src/unnamed/part_003` lines 238-242: the
task's logs sorted by start time descending (comparator
`parseISO(b.startTime) - parseISO(a.startTime)` allows `a` before `b`
exactly when `b.startTime <= a.startTime`). -/
def getTimeLogsByItem (s : PlannerState) (plannerId : String) : List TimeLog :=
  stableSort (fun a b => decide (b.startTime ≤ a.startTime))
    (s.timeLogs.filter (fun log => log.plannerId == plannerId))

/-- `getDayAggregates` from `src/unnamed/part_003` lines 296-327: one
zero bucket per day of `[startOfDay(now) - (days-1) days, now]`, filled
by folding the log collection, then sorted ascending by date (comparator
`a.date.localeCompare(b.date)`). -/
def getDayAggregates (s : PlannerState) (now : Int) (days : Int) : List DayAggregate :=
  let startDate := startOfDay now - (days - 1) * msPerDay
  let dates := getDatesBetween startDate now
  let init := dates.map (fun date =>
    { date := date, totalDuration := 0, itemCount := 0, logs := [] })
  let filled := s.timeLogs.foldl addLogToAggregates init
  stableSort (fun a b => decide (a.date ≤ b.date)) filled

/-- `clearCompleted` from `src/unnamed/part_003` lines 329-333: drops
completed items only; `timeLogs` is not touched. -/
def clearCompleted (s : PlannerState) : PlannerState :=
  { s with items := s.items.filter (fun it => it.status != .completed) }

/-- `archiveItem` from `src/unnamed/part_003` lines 335-337. -/
def archiveItem (s : PlannerState) (id : String) (now : Int) : PlannerState :=
  toggleStatus s id .archived now

/-- One invocation of a mutating store operation, with all impure inputs
(generated ids, clock reads) as explicit payload. -/
inductive Op where
  | createItemOp (d : ItemData) (newId : String) (now : Int)
  | updateItemOp (id : String) (u : ItemUpdates) (now : Int)
  | deleteItemOp (id : String)
  | toggleStatusOp (id : String) (status : PlannerItemStatus) (now : Int)
  | updateScheduleOp (id : String) (scheduledDate dueDate : Option Int) (now : Int)
  | reorderItemsOp (category : PlannerCategory) (itemIds : List String) (now : Int)
  | startEditOp (itemId : String) (restore : ItemUpdates) (now : Int)
  | cancelEditOp (now : Int)
  | commitEditOp (itemId : String) (fieldValue : ItemUpdates) (now : Int)
  | startTimeLogOp (plannerId : String) (notes : Option String) (newId : String)
      (t1 t2 t3 : Int)
  | endTimeLogOp (logId : String) (now : Int)
  | clearCompletedOp
  | archiveItemOp (id : String) (now : Int)
deriving DecidableEq

/-- State transition of one store operation. -/
def applyOp (s : PlannerState) : Op → PlannerState
  | .createItemOp d newId now => (createItem s d newId now).2
  | .updateItemOp id u now => updateItem s id u now
  | .deleteItemOp id => deleteItem s id
  | .toggleStatusOp id status now => toggleStatus s id status now
  | .updateScheduleOp id sd dd now => updateSchedule s id sd dd now
  | .reorderItemsOp c ids now => reorderItems s c ids now
  | .startEditOp itemId restore now => startEdit s itemId restore now
  | .cancelEditOp now => cancelEdit s now
  | .commitEditOp itemId fv now => commitEdit s itemId fv now
  | .startTimeLogOp pid notes newId t1 t2 t3 =>
      (startTimeLog s pid notes newId t1 t2 t3).2
  | .endTimeLogOp logId now => endTimeLog s logId now
  | .clearCompletedOp => clearCompleted s
  | .archiveItemOp id now => archiveItem s id now

/-- Run a sequence of store operations from the empty store. -/
def runOps (ops : List Op) : PlannerState :=
  ops.foldl applyOp emptyState

/-- Number of active (no end timestamp) logs a task currently has. -/
def activeCount (s : PlannerState) (plannerId : String) : Nat :=
  s.timeLogs.countP (activePred plannerId)

/-- The spec invariant: every task has at most one active time log. -/
def ActiveInvariant (s : PlannerState) : Prop :=
  ∀ plannerId, activeCount s plannerId ≤ 1

/-- Specification helper: the logs `getDayAggregates` assigns to the
bucket of day `d` — those with a truthy duration starting on day `d`, in
collection order. -/
def bucketLogs (d : Int) (logs : List TimeLog) : List TimeLog :=
  logs.filter (fun l => durationTruthy l.duration && (dayKey l.startTime == d))

/-- Specification helper: total accumulated duration of a list of logs
(absent durations counting 0; only truthy-duration logs ever reach a
bucket). -/
def sumDur (logs : List TimeLog) : Int :=
  (logs.map (fun l => l.duration.getD 0)).sum

/-- Pointwise effect of one `logs.forEach` iteration of
`getDayAggregates` on a single bucket (proof helper; see
`addLogToAggregates`). -/
def bucketStep (log : TimeLog) (a : DayAggregate) : DayAggregate :=
  if durationTruthy log.duration && (a.date == dayKey log.startTime) then
    { date := a.date
      totalDuration := a.totalDuration + log.duration.getD 0
      itemCount := distinctItems (a.logs ++ [log])
      logs := a.logs ++ [log] }
  else a

/-! Helper lemmas about the day arithmetic. -/

theorem dayKey_eq_ediv (t : Int) : dayKey t = t / 86400000 := by
  rw [dayKey, msPerDay, Int.fdiv_eq_ediv _ (by norm_num)]

theorem startOfDay_le (t : Int) : startOfDay t ≤ t := by
  rw [startOfDay, dayKey_eq_ediv, msPerDay]; omega

theorem lt_dayKey_succ_mul (t : Int) : t < (dayKey t + 1) * msPerDay := by
  rw [dayKey_eq_ediv, msPerDay]; omega

theorem dayKey_mul (m : Int) : dayKey (m * msPerDay) = m := by
  rw [dayKey_eq_ediv, msPerDay]; omega

theorem dayKey_add_msPerDay (t : Int) : dayKey (t + msPerDay) = dayKey t + 1 := by
  rw [dayKey_eq_ediv, dayKey_eq_ediv, msPerDay]; omega

/-! Helper lemmas about `getDatesBetween`. -/

theorem getDatesBetween_cons (s e : Int) (h : s ≤ e) :
    getDatesBetween s e = dayKey s :: getDatesBetween (s + msPerDay) e := by
  rw [getDatesBetween]; simp [h]

theorem getDatesBetween_nil (s e : Int) (h : ¬s ≤ e) : getDatesBetween s e = [] := by
  rw [getDatesBetween]; simp [h]

theorem getDatesBetween_lb (s e : Int) : ∀ x ∈ getDatesBetween s e, dayKey s ≤ x := by
  by_cases h : s ≤ e
  · rw [getDatesBetween_cons s e h]
    intro x hx
    rcases List.mem_cons.mp hx with rfl | hx
    · exact le_refl _
    · have h1 := getDatesBetween_lb (s + msPerDay) e x hx
      have h2 := dayKey_add_msPerDay s
      omega
  · rw [getDatesBetween_nil s e h]
    intro x hx
    simp at hx
termination_by (e + msPerDay - s).toNat
decreasing_by simp only [msPerDay] at *; omega

theorem getDatesBetween_sorted (s e : Int) :
    (getDatesBetween s e).Pairwise (· < ·) := by
  by_cases h : s ≤ e
  · rw [getDatesBetween_cons s e h]
    refine List.pairwise_cons.mpr ⟨?_, getDatesBetween_sorted (s + msPerDay) e⟩
    intro x hx
    have h1 := getDatesBetween_lb (s + msPerDay) e x hx
    have h2 := dayKey_add_msPerDay s
    omega
  · rw [getDatesBetween_nil s e h]
    exact List.Pairwise.nil
termination_by (e + msPerDay - s).toNat
decreasing_by simp only [msPerDay] at *; omega

theorem getDatesBetween_aligned (e : Int) (k : Nat) :
    getDatesBetween ((dayKey e - k) * msPerDay) e
      = (List.range (k + 1)).map (fun i : Nat => dayKey e - k + (i : Int)) := by
  induction k with
  | zero =>
    have hle : (dayKey e - (0 : Nat)) * msPerDay ≤ e := by
      have h1 := startOfDay_le e
      rw [startOfDay] at h1
      simp only [Nat.cast_zero, sub_zero]
      exact h1
    rw [getDatesBetween_cons _ _ hle]
    have hnil : ¬((dayKey e - (0 : Nat)) * msPerDay + msPerDay ≤ e) := by
      have h2 := lt_dayKey_succ_mul e
      simp only [Nat.cast_zero, sub_zero]
      simp only [msPerDay] at *
      omega
    rw [getDatesBetween_nil _ _ hnil]
    simp only [Nat.cast_zero, sub_zero, dayKey_mul]
    simp [List.range_succ]
  | succ k ih =>
    have hle : (dayKey e - (k + 1 : Nat)) * msPerDay ≤ e := by
      have h1 := startOfDay_le e
      rw [startOfDay] at h1
      have h2 : (dayKey e - (k + 1 : Nat)) * msPerDay ≤ dayKey e * msPerDay := by
        apply mul_le_mul_of_nonneg_right _ (by rw [msPerDay]; norm_num)
        push_cast
        omega
      omega
    rw [getDatesBetween_cons _ _ hle, dayKey_mul]
    have harg : (dayKey e - (k + 1 : Nat)) * msPerDay + msPerDay
        = (dayKey e - (k : Nat)) * msPerDay := by
      push_cast
      ring
    rw [harg, ih]
    conv_rhs => rw [List.range_succ_eq_map, List.map_cons, List.map_map]
    congr 1
    · push_cast; ring
    · apply List.map_congr_left
      intro i _
      simp only [Function.comp]
      push_cast
      ring

/-! Helper lemmas about `stableSort`. -/

theorem stableSort_of_pairwise (le : α → α → Bool) :
    ∀ l : List α, l.Pairwise (fun x y => le x y = true) → stableSort le l = l
  | [], _ => rfl
  | a :: l, h => by
    have h1 := (List.pairwise_cons.mp h).1
    have h2 := (List.pairwise_cons.mp h).2
    rw [stableSort, stableSort_of_pairwise le l h2]
    cases l with
    | nil => rfl
    | cons b bs =>
      have hab : le a b = true := h1 b (List.mem_cons_self b bs)
      simp [stableInsert, hab]

/-! Helper lemmas about the aggregation fold. -/

theorem addLogToAggregates_eq_map (aggs : List DayAggregate) (log : TimeLog) :
    addLogToAggregates aggs log = aggs.map (bucketStep log) := by
  cases hd : durationTruthy log.duration with
  | true =>
    simp only [addLogToAggregates, hd, if_true]
    apply List.map_congr_left
    intro a _
    simp [bucketStep, hd]
  | false =>
    have hid : ∀ a ∈ aggs, bucketStep log a = a := by
      intro a _
      simp [bucketStep, hd]
    rw [show addLogToAggregates aggs log = aggs from by simp [addLogToAggregates, hd]]
    exact ((List.map_congr_left hid).trans (List.map_id' aggs)).symm

theorem foldl_addLog (logs : List TimeLog) :
    ∀ aggs : List DayAggregate,
      logs.foldl addLogToAggregates aggs
        = aggs.map (fun a => logs.foldl (fun x log => bucketStep log x) a) := by
  induction logs with
  | nil => intro aggs; simp
  | cons l ls ih =>
    intro aggs
    simp only [List.foldl_cons]
    rw [addLogToAggregates_eq_map, ih, List.map_map]
    rfl

theorem foldl_bucketStep (logs : List TimeLog) :
    ∀ a : DayAggregate,
      a.totalDuration = sumDur a.logs → a.itemCount = distinctItems a.logs →
      logs.foldl (fun x log => bucketStep log x) a
        = { date := a.date
            totalDuration := sumDur (a.logs ++ bucketLogs a.date logs)
            itemCount := distinctItems (a.logs ++ bucketLogs a.date logs)
            logs := a.logs ++ bucketLogs a.date logs } := by
  induction logs with
  | nil =>
    intro a h1 h2
    simp [bucketLogs, ← h1, ← h2]
  | cons l ls ih =>
    intro a h1 h2
    by_cases ht : durationTruthy l.duration = true
    · by_cases hk : dayKey l.startTime = a.date
      · have hstep : bucketStep l a =
            { date := a.date
              totalDuration := a.totalDuration + l.duration.getD 0
              itemCount := distinctItems (a.logs ++ [l])
              logs := a.logs ++ [l] } := by
          simp [bucketStep, ht, hk]
        have hfilter : bucketLogs a.date (l :: ls) = l :: bucketLogs a.date ls := by
          simp [bucketLogs, List.filter_cons, ht, hk]
        simp only [List.foldl_cons, hstep]
        rw [ih _ (by simp [sumDur, h1]) rfl]
        simp [hfilter, List.append_assoc]
      · have hk2 : ¬(a.date = dayKey l.startTime) := fun h => hk h.symm
        have hstep : bucketStep l a = a := by
          simp [bucketStep, ht, hk2]
        have hfilter : bucketLogs a.date (l :: ls) = bucketLogs a.date ls := by
          simp [bucketLogs, List.filter_cons, ht, hk]
        simp only [List.foldl_cons, hstep]
        rw [ih a h1 h2, hfilter]
    · have ht' : durationTruthy l.duration = false := by
        cases hx : durationTruthy l.duration
        · rfl
        · exact absurd hx ht
      have hstep : bucketStep l a = a := by
        simp [bucketStep, ht']
      have hfilter : bucketLogs a.date (l :: ls) = bucketLogs a.date ls := by
        simp [bucketLogs, List.filter_cons, ht']
      simp only [List.foldl_cons, hstep]
      rw [ih a h1 h2, hfilter]

/-- The content of every `getDayAggregates` result: one bucket per window
day carrying exactly the truthy-duration logs of that day, their total
duration, and their distinct-task count. -/
theorem getDayAggregates_eq (s : PlannerState) (now days : Int) :
    getDayAggregates s now days
      = (getDatesBetween (startOfDay now - (days - 1) * msPerDay) now).map
          (fun d =>
            { date := d
              totalDuration := sumDur (bucketLogs d s.timeLogs)
              itemCount := distinctItems (bucketLogs d s.timeLogs)
              logs := bucketLogs d s.timeLogs }) := by
  show stableSort (fun a b => decide (a.date ≤ b.date))
      (s.timeLogs.foldl addLogToAggregates
        ((getDatesBetween (startOfDay now - (days - 1) * msPerDay) now).map
          (fun date => { date := date, totalDuration := 0, itemCount := 0, logs := [] })))
      = _
  rw [foldl_addLog, List.map_map]
  have hmap :
      ((getDatesBetween (startOfDay now - (days - 1) * msPerDay) now).map
        ((fun a => s.timeLogs.foldl (fun x log => bucketStep log x) a) ∘
          (fun date => { date := date, totalDuration := 0, itemCount := 0, logs := [] })))
      = (getDatesBetween (startOfDay now - (days - 1) * msPerDay) now).map
          (fun d =>
            { date := d
              totalDuration := sumDur (bucketLogs d s.timeLogs)
              itemCount := distinctItems (bucketLogs d s.timeLogs)
              logs := bucketLogs d s.timeLogs }) := by
    apply List.map_congr_left
    intro d _
    simp only [Function.comp]
    rw [foldl_bucketStep _ _ rfl rfl]
    simp
  rw [hmap]
  apply stableSort_of_pairwise
  refine List.Pairwise.map _ ?_ (getDatesBetween_sorted _ _)
  intro a b hab
  simp only [decide_eq_true_eq]
  exact le_of_lt hab

/-! Helper lemmas for the at-most-one-active-log invariant. -/

theorem countP_map_le (p : α → Bool) (f : α → α)
    (h : ∀ x, p (f x) = true → p x = true) (l : List α) :
    (l.map f).countP p ≤ l.countP p := by
  rw [List.countP_map]
  apply List.countP_mono_left
  intro x _ hx
  exact h x hx

theorem countP_filter_le (p q : α → Bool) (l : List α) :
    (l.filter q).countP p ≤ l.countP p :=
  (List.filter_sublist l).countP_le p

theorem eq_of_length_le_one {l : List α} (h : l.length ≤ 1) {a b : α}
    (ha : a ∈ l) (hb : b ∈ l) : a = b := by
  match l with
  | [] => simp at ha
  | [x] =>
    simp at ha hb
    rw [ha, hb]
  | x :: y :: t => simp at h

theorem active_unique {s : PlannerState} {pid : String}
    (h : activeCount s pid ≤ 1) {y z : TimeLog}
    (hy : y ∈ s.timeLogs) (hpy : activePred pid y = true)
    (hz : z ∈ s.timeLogs) (hpz : activePred pid z = true) : y = z := by
  rw [activeCount, List.countP_eq_length_filter] at h
  exact eq_of_length_le_one h (List.mem_filter.mpr ⟨hy, hpy⟩)
    (List.mem_filter.mpr ⟨hz, hpz⟩)

theorem activeCount_eq_zero_of_find_none (s : PlannerState) (pid : String)
    (h : getActiveTimeLog s pid = none) : activeCount s pid = 0 := by
  rw [activeCount, List.countP_eq_zero]
  intro a ha
  exact List.find?_eq_none.mp h a ha

theorem activeCount_endTimeLog_le (s : PlannerState) (logId : String) (t : Int)
    (pid : String) :
    activeCount (endTimeLog s logId t) pid ≤ activeCount s pid := by
  refine countP_map_le _ _ ?_ s.timeLogs
  intro x hx
  by_cases hc : (x.id == logId && x.endTime.isNone) = true
  · rw [if_pos hc] at hx
    simp [activePred] at hx
  · rw [if_neg hc] at hx
    exact hx

theorem activeCount_close (s : PlannerState) (pid : String) (l : TimeLog) (t : Int)
    (hinv : activeCount s pid ≤ 1) (hfind : getActiveTimeLog s pid = some l) :
    activeCount (endTimeLog s l.id t) pid = 0 := by
  have hl : l ∈ s.timeLogs := List.mem_of_find?_eq_some hfind
  have hpl : activePred pid l = true := List.find?_some hfind
  rw [activeCount, List.countP_eq_zero]
  intro x hx
  simp only [endTimeLog] at hx
  obtain ⟨y, hy, rfl⟩ := List.mem_map.mp hx
  by_cases hc : (y.id == l.id && y.endTime.isNone) = true
  · rw [if_pos hc]
    simp [activePred]
  · rw [if_neg hc]
    intro hpy
    have hyl : y = l := active_unique hinv hy hpy hl hpl
    subst hyl
    apply hc
    have h2 : y.endTime = none := by
      simp [activePred] at hpy
      exact hpy.2
    simp [h2]

theorem startTimeLog_timeLogs_none (s : PlannerState) (pid : String)
    (notes : Option String) (nid : String) (t1 t2 t3 : Int)
    (hfind : getActiveTimeLog s pid = none) :
    (startTimeLog s pid notes nid t1 t2 t3).2.timeLogs
      = s.timeLogs ++
        [{ id := nid, plannerId := pid, startTime := t2, endTime := none,
           duration := none, notes := notes, createdAt := t2, updatedAt := t2 }] := by
  simp [startTimeLog, hfind, updateItem]

theorem startTimeLog_timeLogs_some (s : PlannerState) (pid : String)
    (notes : Option String) (nid : String) (t1 t2 t3 : Int) (l : TimeLog)
    (hfind : getActiveTimeLog s pid = some l) :
    (startTimeLog s pid notes nid t1 t2 t3).2.timeLogs
      = (endTimeLog s l.id t1).timeLogs ++
        [{ id := nid, plannerId := pid, startTime := t2, endTime := none,
           duration := none, notes := notes, createdAt := t2, updatedAt := t2 }] := by
  simp [startTimeLog, hfind, updateItem]

theorem startTimeLog_preserves (s : PlannerState) (pid : String)
    (notes : Option String) (nid : String) (t1 t2 t3 : Int)
    (hinv : ActiveInvariant s) :
    ActiveInvariant (startTimeLog s pid notes nid t1 t2 t3).2 := by
  intro q
  cases hfind : getActiveTimeLog s pid with
  | none =>
    have h0 : activeCount s pid = 0 := activeCount_eq_zero_of_find_none s pid hfind
    rw [activeCount, startTimeLog_timeLogs_none s pid notes nid t1 t2 t3 hfind,
      List.countP_append]
    by_cases hq : q = pid
    · subst hq
      rw [activeCount] at h0
      simp [activePred, h0]
    · have hq2 : activePred q
          { id := nid, plannerId := pid, startTime := t2, endTime := none,
            duration := none, notes := notes, createdAt := t2, updatedAt := t2 }
          = false := by
        simp [activePred]
        exact fun h => absurd h.symm hq
      have := hinv q
      rw [activeCount] at this
      simp [List.countP_cons, hq2]
      omega
  | some l =>
    have h0 : activeCount (endTimeLog s l.id t1) pid = 0 :=
      activeCount_close s pid l t1 (hinv pid) hfind
    rw [activeCount, startTimeLog_timeLogs_some s pid notes nid t1 t2 t3 l hfind,
      List.countP_append]
    by_cases hq : q = pid
    · subst hq
      rw [activeCount] at h0
      simp [activePred, h0]
    · have hq2 : activePred q
          { id := nid, plannerId := pid, startTime := t2, endTime := none,
            duration := none, notes := notes, createdAt := t2, updatedAt := t2 }
          = false := by
        simp [activePred]
        exact fun h => absurd h.symm hq
      have hle := activeCount_endTimeLog_le s l.id t1 q
      have hq1 := hinv q
      simp only [activeCount] at hle hq1
      simp [List.countP_cons, hq2]
      omega

theorem applyOp_preserves (s : PlannerState) (op : Op) (h : ActiveInvariant s) :
    ActiveInvariant (applyOp s op) := by
  cases op with
  | createItemOp d nid now => exact h
  | updateItemOp id u now => exact h
  | deleteItemOp id =>
    intro q
    exact le_trans (countP_filter_le _ _ s.timeLogs) (h q)
  | toggleStatusOp id status now => exact h
  | updateScheduleOp id sd dd now => exact h
  | reorderItemsOp c ids now => exact h
  | startEditOp itemId restore now => exact h
  | cancelEditOp now =>
    cases hm : s.inlineEditMetadata with
    | none =>
      intro q
      simp only [applyOp, cancelEdit, hm]
      exact h q
    | some m =>
      intro q
      simp only [applyOp, cancelEdit, hm]
      exact h q
  | commitEditOp itemId fv now => exact h
  | startTimeLogOp pid notes nid t1 t2 t3 =>
    exact startTimeLog_preserves s pid notes nid t1 t2 t3 h
  | endTimeLogOp logId now =>
    intro q
    exact le_trans (activeCount_endTimeLog_le s logId now q) (h q)
  | clearCompletedOp => exact h
  | archiveItemOp id now => exact h

theorem foldl_applyOp_invariant :
    ∀ (ops : List Op) (s : PlannerState),
      ActiveInvariant s → ActiveInvariant (ops.foldl applyOp s)
  | [], _, h => h
  | op :: ops, s, h =>
    foldl_applyOp_invariant ops (applyOp s op) (applyOp_preserves s op h)

theorem closed_log_mem (s : PlannerState) (pid : String) (l : TimeLog) (t1 : Int)
    (hfind : getActiveTimeLog s pid = some l) :
    { l with
      endTime := some t1
      duration := some (calculateDuration l.startTime t1)
      updatedAt := t1 } ∈ (endTimeLog s l.id t1).timeLogs := by
  have hl : l ∈ s.timeLogs := List.mem_of_find?_eq_some hfind
  have hpl : activePred pid l = true := List.find?_some hfind
  have hnone : l.endTime = none := by
    simp [activePred] at hpl
    exact hpl.2
  simp only [endTimeLog]
  refine List.mem_map.mpr ⟨l, hl, ?_⟩
  have hc : (l.id == l.id && l.endTime.isNone) = true := by simp [hnone]
  rw [if_pos hc]

/-! Helper lemmas about mutations on unknown ids. -/

theorem map_if_id {p : α → Bool} {f : α → α} (l : List α)
    (h : ∀ x ∈ l, p x = false) :
    l.map (fun x => if p x then f x else x) = l := by
  have h2 : ∀ x ∈ l, (if p x then f x else x) = x := by
    intro x hx
    simp [h x hx]
  exact (List.map_congr_left h2).trans (List.map_id' l)

theorem updateItem_unknown (s : PlannerState) (id : String) (u : ItemUpdates)
    (now : Int) (h : ∀ it ∈ s.items, ¬it.id = id) : updateItem s id u now = s := by
  simp only [updateItem]
  rw [map_if_id s.items]
  intro it hit
  simp [h it hit]

theorem toggleStatus_unknown (s : PlannerState) (id : String)
    (status : PlannerItemStatus) (now : Int)
    (h : ∀ it ∈ s.items, ¬it.id = id) : toggleStatus s id status now = s := by
  simp only [toggleStatus]
  rw [map_if_id s.items]
  intro it hit
  simp [h it hit]

theorem deleteItem_unknown (s : PlannerState) (id : String)
    (h1 : ∀ it ∈ s.items, ¬it.id = id)
    (h2 : ∀ l ∈ s.timeLogs, ¬l.plannerId = id) : deleteItem s id = s := by
  simp only [deleteItem]
  rw [List.filter_eq_self.mpr, List.filter_eq_self.mpr]
  · intro l hl
    simp [h2 l hl]
  · intro it hit
    simp [h1 it hit]

theorem endTimeLog_unknown (s : PlannerState) (logId : String) (now : Int)
    (h : ∀ l ∈ s.timeLogs, ¬l.id = logId) : endTimeLog s logId now = s := by
  simp only [endTimeLog]
  rw [map_if_id s.timeLogs]
  intro l hl
  simp [h l hl]

theorem startTimeLog_unknown (s : PlannerState) (pid : String)
    (notes : Option String) (nid : String) (t1 t2 t3 : Int)
    (h1 : ∀ it ∈ s.items, ¬it.id = pid)
    (h2 : ∀ l ∈ s.timeLogs, ¬l.plannerId = pid) :
    (startTimeLog s pid notes nid t1 t2 t3).2
      = { s with timeLogs := s.timeLogs ++
          [{ id := nid, plannerId := pid, startTime := t2, endTime := none,
             duration := none, notes := notes, createdAt := t2, updatedAt := t2 }] } := by
  have hfind : getActiveTimeLog s pid = none := by
    rw [getActiveTimeLog, List.find?_eq_none]
    intro l hl
    simp [activePred, h2 l hl]
  show updateItem _ pid { status := some .inProgress } t3 = _
  rw [show (match getActiveTimeLog s pid with
      | some l => endTimeLog s l.id t1
      | none => s) = s from by rw [hfind]]
  exact updateItem_unknown _ pid _ t3 h1

/-! Concrete sample data for witnesses and counterexamples. -/

/-- Sample `createItem` argument with an empty title. -/
def emptyTitleData : ItemData where
  title := ""
  description := none
  status := .pending
  priority := .medium
  category := .today
  dueDate := none
  scheduledDate := none
  estimatedDuration := none
  tags := none
  recurrence := none
  isEditing := none
  completedAt := none

/-- A closed time log carrying a negative duration, as `endTimeLog` would
record after a backwards clock jump. -/
def negLog : TimeLog where
  id := "L"
  plannerId := "T"
  startTime := 100
  endTime := some 0
  duration := some (-10)
  notes := none
  createdAt := 100
  updatedAt := 100

/-- Store holding only `negLog`. -/
def negState : PlannerState where
  items := []
  timeLogs := [negLog]
  inlineEditMetadata := none

/-- A closed time log with a present duration of exactly 0 seconds. -/
def zeroLog : TimeLog where
  id := "Z"
  plannerId := "T"
  startTime := 100
  endTime := some 100
  duration := some 0
  notes := none
  createdAt := 100
  updatedAt := 100

/-- Store holding only `zeroLog`. -/
def zeroState : PlannerState where
  items := []
  timeLogs := [zeroLog]
  inlineEditMetadata := none

/-- A closed time log with a positive duration. -/
def posLog : TimeLog where
  id := "P"
  plannerId := "T"
  startTime := 100
  endTime := some 60100
  duration := some 60
  notes := none
  createdAt := 100
  updatedAt := 60100

/-- Store holding only `posLog`. -/
def posState : PlannerState where
  items := []
  timeLogs := [posLog]
  inlineEditMetadata := none

/-- An open (active) time log of task `"T"`. -/
def activeLog : TimeLog where
  id := "A"
  plannerId := "T"
  startTime := 50
  endTime := none
  duration := none
  notes := none
  createdAt := 50
  updatedAt := 50

/-- Store holding only `activeLog`. -/
def activeState : PlannerState where
  items := []
  timeLogs := [activeLog]
  inlineEditMetadata := none

/-- A sample pending task with id `"T"` in category `today`. -/
def sampleItem : PlannerItem where
  id := "T"
  title := "t"
  description := none
  status := .pending
  priority := .medium
  category := .today
  dueDate := none
  scheduledDate := none
  estimatedDuration := none
  tags := none
  recurrence := none
  isEditing := none
  createdAt := 0
  updatedAt := 0
  completedAt := none
  order := 0

/-- A sample completed task with id `"C"`. -/
def doneItem : PlannerItem where
  id := "C"
  title := "c"
  description := none
  status := .completed
  priority := .medium
  category := .today
  dueDate := none
  scheduledDate := none
  estimatedDuration := none
  tags := none
  recurrence := none
  isEditing := none
  createdAt := 0
  updatedAt := 0
  completedAt := some 0
  order := 1

/-- Store holding `sampleItem` and `doneItem` plus `posLog`. -/
def sampleState : PlannerState where
  items := [sampleItem, doneItem]
  timeLogs := [posLog]
  inlineEditMetadata := none

/-! The claims. -/

/-- C2, counterexample: the claim says `createItem` rejects an empty
title and leaves the collections unchanged; on the concrete input with
title `""` the code instead appends the new item to `items`. -/
theorem claim2_counterexample :
    emptyTitleData.title = "" ∧
    (createItem emptyState emptyTitleData "a" 0).2.items ≠ [] ∧
    emptyState.items = [] := by
  refine ⟨rfl, by decide, rfl⟩

/-- C2 (amended): `createItem` performs no validation at all: for every
input record — including an empty or over-length title or description —
it appends the freshly built item to `items`, touches neither `timeLogs`
nor the edit metadata, and returns the item with the given title and
description.  (`MAX_TITLE_LENGTH` and `MAX_DESCRIPTION_LENGTH` exist but
are never consulted by the store.) -/
theorem claim2_createItem_never_validates (s : PlannerState) (d : ItemData)
    (newId : String) (now : Int) :
    (createItem s d newId now).2.items
      = s.items ++ [(createItem s d newId now).1] ∧
    (createItem s d newId now).2.timeLogs = s.timeLogs ∧
    (createItem s d newId now).2.inlineEditMetadata = s.inlineEditMetadata ∧
    (createItem s d newId now).1.title = d.title ∧
    (createItem s d newId now).1.description = d.description :=
  ⟨rfl, rfl, rfl, rfl, rfl⟩

/-- C3, counterexample: the claim says a negative duration can never be
produced or flow into the aggregates; on the concrete input
`start = 10000 ms`, `end = 0 ms` the code returns `-10`, and a log
carrying duration `-10` flows into a `getDayAggregates` bucket total. -/
theorem claim3_counterexample :
    calculateDuration 10000 0 = -10 ∧
    negLog.duration = some (-10) ∧
    getDayAggregates negState 500 1
      = [{ date := 0, totalDuration := -10, itemCount := 1, logs := [negLog] }] := by
  refine ⟨by decide, rfl, ?_⟩
  have h1 : startOfDay 500 - ((1 : Int) - 1) * msPerDay
      = (dayKey 500 - ((0 : Nat) : Int)) * msPerDay := by decide
  rw [getDayAggregates_eq, h1, getDatesBetween_aligned]
  decide

/-- C3 (amended): `calculateDuration` neither rejects nor clamps an end
timestamp earlier than the start: whenever `end` precedes `start` by more
than the half-second rounding slack it returns a negative number of
seconds (`Math.round` of the millisecond difference over 1000), which
then flows unchecked into the aggregates. -/
theorem claim3_negative_duration (startTime endTime : Int)
    (h : endTime + 500 < startTime) : calculateDuration startTime endTime < 0 := by
  rw [calculateDuration, Int.fdiv_eq_ediv _ (by norm_num)]
  omega

/-- C3, witness for `claim3_negative_duration`. -/
theorem claim3_witness : (0 : Int) + 500 < 10000 ∧ calculateDuration 10000 0 < 0 :=
  ⟨by norm_num, claim3_negative_duration 10000 0 (by norm_num)⟩

/-- C6: `endTimeLog` is idempotent — a second call on the same log id
changes nothing at all (in particular neither `duration` nor
`updatedAt`), whatever the clock reads are. -/
theorem claim6_endTimeLog_idempotent (s : PlannerState) (logId : String)
    (t1 t2 : Int) :
    endTimeLog (endTimeLog s logId t1) logId t2 = endTimeLog s logId t1 := by
  simp only [endTimeLog]
  rw [List.map_map]
  congr 1
  apply List.map_congr_left
  intro x _
  simp only [Function.comp]
  by_cases hc : (x.id == logId && x.endTime.isNone) = true
  · rw [if_pos hc, if_neg (by simp)]
  · rw [if_neg hc, if_neg hc]

/-- C7: for a task id present in the store, `deleteItem` removes the task
and every time log referencing it (active ones included, simply
discarded); `getTimeLogsByItem` then returns the empty sequence, and
every other task and log survives untouched. -/
theorem claim7_delete_cascades (s : PlannerState) (id : String)
    (_hpresent : ∃ it ∈ s.items, it.id = id) :
    (∀ it ∈ (deleteItem s id).items, it.id ≠ id) ∧
    (∀ l ∈ (deleteItem s id).timeLogs, l.plannerId ≠ id) ∧
    getTimeLogsByItem (deleteItem s id) id = [] ∧
    (∀ it ∈ s.items, it.id ≠ id → it ∈ (deleteItem s id).items) ∧
    (∀ l ∈ s.timeLogs, l.plannerId ≠ id → l ∈ (deleteItem s id).timeLogs) := by
  refine ⟨?_, ?_, ?_, ?_, ?_⟩
  · intro it hit
    have h2 := (List.mem_filter.mp hit).2
    simpa using h2
  · intro l hl
    have h2 := (List.mem_filter.mp hl).2
    simpa using h2
  · have hfil : (deleteItem s id).timeLogs.filter (fun log => log.plannerId == id)
        = [] := by
      rw [List.filter_eq_nil_iff]
      intro l hl
      have h2 := (List.mem_filter.mp hl).2
      simpa using h2
    rw [getTimeLogsByItem, hfil]
    rfl
  · intro it hit hne
    exact List.mem_filter.mpr ⟨hit, by simpa using hne⟩
  · intro l hl hne
    exact List.mem_filter.mpr ⟨hl, by simpa using hne⟩

/-- C7, witness for `claim7_delete_cascades` on a concrete store. -/
theorem claim7_witness :
    (∃ it ∈ sampleState.items, it.id = "T") ∧
    getTimeLogsByItem (deleteItem sampleState "T") "T" = [] ∧
    doneItem ∈ (deleteItem sampleState "T").items :=
  ⟨⟨sampleItem, by decide, rfl⟩,
   (claim7_delete_cascades sampleState "T" ⟨sampleItem, by decide, rfl⟩).2.2.1,
   (claim7_delete_cascades sampleState "T" ⟨sampleItem, by decide, rfl⟩).2.2.2.1
     doneItem (by decide) (by decide)⟩

/-- C8, counterexample: the claim says `startTimeLog` on a `plannerId`
matching no existing task is a no-op; on the empty store (which contains
no task at all) the call still inserts a fresh active log, changing the
store. -/
theorem claim8_counterexample :
    emptyState.items = [] ∧ emptyState.timeLogs = [] ∧
    (startTimeLog emptyState "T" none "N" 0 0 0).2 ≠ emptyState := by
  refine ⟨rfl, rfl, by decide⟩

/-- C8 (amended): `updateItem`, `deleteItem`, `toggleStatus` and
`endTimeLog` on ids that nothing in the store carries are no-ops
returning the state unchanged (for `deleteItem` this additionally needs
that no time log references the id, since orphaned logs would be
cascaded; for `endTimeLog` that no log has the id).  `startTimeLog` on a
`plannerId` matching no existing task is NOT a no-op: it still appends a
fresh active log for that id (the status side effect alone has no
target), as the code never checks task existence. -/
theorem claim8_unknown_id_mutations :
    (∀ (s : PlannerState) (id : String) (u : ItemUpdates) (now : Int),
      (∀ it ∈ s.items, ¬it.id = id) → updateItem s id u now = s) ∧
    (∀ (s : PlannerState) (id : String),
      (∀ it ∈ s.items, ¬it.id = id) → (∀ l ∈ s.timeLogs, ¬l.plannerId = id) →
        deleteItem s id = s) ∧
    (∀ (s : PlannerState) (id : String) (status : PlannerItemStatus) (now : Int),
      (∀ it ∈ s.items, ¬it.id = id) → toggleStatus s id status now = s) ∧
    (∀ (s : PlannerState) (logId : String) (now : Int),
      (∀ l ∈ s.timeLogs, ¬l.id = logId) → endTimeLog s logId now = s) ∧
    (∀ (s : PlannerState) (pid : String) (notes : Option String) (nid : String)
        (t1 t2 t3 : Int),
      (∀ it ∈ s.items, ¬it.id = pid) → (∀ l ∈ s.timeLogs, ¬l.plannerId = pid) →
        (startTimeLog s pid notes nid t1 t2 t3).2
          = { s with timeLogs := s.timeLogs ++
              [{ id := nid, plannerId := pid, startTime := t2, endTime := none,
                 duration := none, notes := notes, createdAt := t2,
                 updatedAt := t2 }] }) :=
  ⟨updateItem_unknown, deleteItem_unknown, toggleStatus_unknown,
   endTimeLog_unknown, startTimeLog_unknown⟩

/-- C8, witness for `claim8_unknown_id_mutations` on a concrete store and
the unknown id `"X"`. -/
theorem claim8_witness :
    updateItem sampleState "X" {} 5 = sampleState ∧
    deleteItem sampleState "X" = sampleState ∧
    toggleStatus sampleState "X" .completed 5 = sampleState ∧
    endTimeLog sampleState "X" 5 = sampleState ∧
    (startTimeLog sampleState "X" none "N" 1 2 3).2
      = { sampleState with timeLogs := sampleState.timeLogs ++
          [{ id := "N", plannerId := "X", startTime := 2, endTime := none,
             duration := none, notes := none, createdAt := 2, updatedAt := 2 }] } :=
  ⟨claim8_unknown_id_mutations.1 sampleState "X" {} 5 (by decide),
   claim8_unknown_id_mutations.2.1 sampleState "X" (by decide) (by decide),
   claim8_unknown_id_mutations.2.2.1 sampleState "X" .completed 5 (by decide),
   claim8_unknown_id_mutations.2.2.2.1 sampleState "X" 5 (by decide),
   claim8_unknown_id_mutations.2.2.2.2 sampleState "X" none "N" 1 2 3
     (by decide) (by decide)⟩

/-- C9: `clearCompleted` removes exactly the tasks whose status is
`completed`, keeps every other task untouched, and leaves the `timeLogs`
collection (and the edit metadata) unchanged — logs of removed tasks stay
behind as orphaned references. -/
theorem claim9_clearCompleted_frame (s : PlannerState) :
    (clearCompleted s).timeLogs = s.timeLogs ∧
    (clearCompleted s).inlineEditMetadata = s.inlineEditMetadata ∧
    (∀ it ∈ (clearCompleted s).items, it.status ≠ .completed) ∧
    (∀ it ∈ s.items, it.status ≠ .completed → it ∈ (clearCompleted s).items) ∧
    (∀ it ∈ (clearCompleted s).items, it ∈ s.items) := by
  refine ⟨rfl, rfl, ?_, ?_, ?_⟩
  · intro it hit
    have h2 := (List.mem_filter.mp hit).2
    simpa using h2
  · intro it hit hne
    exact List.mem_filter.mpr ⟨hit, by simpa using hne⟩
  · intro it hit
    exact (List.mem_filter.mp hit).1

/-- C9, witness for `claim9_clearCompleted_frame` on a concrete store
with one completed and one pending task plus one log. -/
theorem claim9_witness :
    (clearCompleted sampleState).timeLogs = sampleState.timeLogs ∧
    sampleItem ∈ (clearCompleted sampleState).items :=
  ⟨(claim9_clearCompleted_frame sampleState).1,
   (claim9_clearCompleted_frame sampleState).2.2.2.1 sampleItem (by decide)
     (by decide)⟩

/-- C10: for every non-negative integer `N` and every start timestamp,
`calculateDuration` applied to `start` and `end = start + N seconds`
(i.e. `start + 1000 N` milliseconds) returns exactly `N`. -/
theorem claim10_duration_roundtrip (N : Nat) (startTime : Int) :
    calculateDuration startTime (startTime + 1000 * N) = N := by
  rw [calculateDuration, Int.fdiv_eq_ediv _ (by norm_num)]
  omega

/-- C1: starting from the empty store, after every sequence of store
operations each task has at most one active (missing end timestamp) time
log; and `startTimeLog` on a task that already has an active log first
closes that log — setting its `endTime` and computed `duration` — before
appending the new active log. -/
theorem claim1_active_invariant :
    (∀ ops : List Op, ActiveInvariant (runOps ops)) ∧
    (∀ (s : PlannerState) (pid : String) (notes : Option String) (nid : String)
        (t1 t2 t3 : Int) (l : TimeLog),
      getActiveTimeLog s pid = some l →
        (startTimeLog s pid notes nid t1 t2 t3).2.timeLogs
          = (endTimeLog s l.id t1).timeLogs ++
            [{ id := nid, plannerId := pid, startTime := t2, endTime := none,
               duration := none, notes := notes, createdAt := t2,
               updatedAt := t2 }] ∧
        { l with
            endTime := some t1
            duration := some (calculateDuration l.startTime t1)
            updatedAt := t1 } ∈ (endTimeLog s l.id t1).timeLogs) := by
  constructor
  · intro ops
    refine foldl_applyOp_invariant ops emptyState ?_
    intro pid
    simp [activeCount, emptyState]
  · intro s pid notes nid t1 t2 t3 l hfind
    exact ⟨startTimeLog_timeLogs_some s pid notes nid t1 t2 t3 l hfind,
           closed_log_mem s pid l t1 hfind⟩

/-- C1, witness for the second part of `claim1_active_invariant` on a
concrete store with one active log. -/
theorem claim1_witness :
    getActiveTimeLog activeState "T" = some activeLog ∧
    ({ activeLog with
        endTime := some 200
        duration := some (calculateDuration activeLog.startTime 200)
        updatedAt := 200 } ∈ (endTimeLog activeState activeLog.id 200).timeLogs) :=
  ⟨by decide,
   (claim1_active_invariant.2 activeState "T" none "B" 200 300 400 activeLog
     (by decide)).2⟩

/-- C4: for `windowDays >= 1` and any store state, `getDayAggregates`
returns exactly `windowDays` buckets whose date keys are the contiguous,
strictly ascending run of calendar days ending with today
(`dayKey now - windowDays + 1 + i` for `i = 0, ..., windowDays - 1`);
on an empty log collection every bucket is `⟨date, 0, 0, []⟩`. -/
theorem claim4_day_aggregates_complete (s : PlannerState) (now days : Int)
    (h : 1 ≤ days) :
    (getDayAggregates s now days).length = days.toNat ∧
    (getDayAggregates s now days).map (fun a => a.date)
      = (List.range days.toNat).map (fun i : Nat => dayKey now - days + 1 + (i : Int)) ∧
    (s.timeLogs = [] →
      getDayAggregates s now days
        = (List.range days.toNat).map (fun i : Nat =>
            { date := dayKey now - days + 1 + (i : Int), totalDuration := 0,
              itemCount := 0, logs := ([] : List TimeLog) })) := by
  obtain ⟨k, hk1, hk2⟩ : ∃ k : Nat, (days - 1 : Int) = (k : Int) ∧ days.toNat = k + 1 :=
    ⟨(days - 1).toNat, by omega, by omega⟩
  have hstart : startOfDay now - (days - 1) * msPerDay
      = (dayKey now - (k : Int)) * msPerDay := by
    rw [startOfDay, hk1]
    ring
  have hmaster := getDayAggregates_eq s now days
  rw [hstart, getDatesBetween_aligned now k] at hmaster
  refine ⟨?_, ?_, ?_⟩
  · rw [hmaster, List.length_map, List.length_map, List.length_range]
    exact hk2.symm
  · rw [hmaster, List.map_map, List.map_map, hk2]
    apply List.map_congr_left
    intro i _
    simp only [Function.comp]
    omega
  · intro hempty
    rw [hmaster, List.map_map, hk2]
    simp only [hempty]
    apply List.map_congr_left
    intro i _
    simp only [Function.comp, bucketLogs, List.filter_nil, sumDur, distinctItems,
      List.map_nil, List.dedup_nil, List.length_nil, List.sum_nil]
    simp only [DayAggregate.mk.injEq, and_true, true_and]
    omega

/-- C4, witness for `claim4_day_aggregates_complete` at `windowDays = 7`
on the empty store. -/
theorem claim4_witness :
    (1 : Int) ≤ 7 ∧
    ((getDayAggregates emptyState 0 7).length = (7 : Int).toNat ∧
     (getDayAggregates emptyState 0 7).map (fun a => a.date)
       = (List.range (7 : Int).toNat).map
           (fun i : Nat => dayKey 0 - 7 + 1 + (i : Int)) ∧
     (emptyState.timeLogs = [] →
       getDayAggregates emptyState 0 7
         = (List.range (7 : Int).toNat).map (fun i : Nat =>
             { date := dayKey 0 - 7 + 1 + (i : Int), totalDuration := 0,
               itemCount := 0, logs := ([] : List TimeLog) }))) :=
  ⟨by norm_num, claim4_day_aggregates_complete emptyState 0 7 (by norm_num)⟩

/-- C5, counterexample: the claim says a log whose duration is present —
including a duration of exactly 0 seconds — and whose start day lies in
the window is appended to its day bucket; on this concrete store the
0-duration log `zeroLog` starts inside the 1-day window yet the bucket
stays empty, because `if (!log.duration) return` treats 0 as falsy. -/
theorem claim5_counterexample :
    zeroState.timeLogs = [zeroLog] ∧
    zeroLog.duration = some 0 ∧
    dayKey zeroLog.startTime = 0 ∧
    getDayAggregates zeroState 500 1
      = [{ date := 0, totalDuration := 0, itemCount := 0, logs := [] }] := by
  refine ⟨rfl, rfl, by decide, ?_⟩
  have h1 : startOfDay 500 - ((1 : Int) - 1) * msPerDay
      = (dayKey 500 - ((0 : Nat) : Int)) * msPerDay := by decide
  rw [getDayAggregates_eq, h1, getDatesBetween_aligned]
  decide

/-- C5 (amended): every bucket returned by `getDayAggregates` carries
exactly the logs whose duration is present and nonzero (a present
duration of 0 is skipped by the JS truthiness check) and whose start
timestamp's day equals the bucket's date, together with their summed
duration and distinct-task count; a log whose day lies outside the
window, or whose duration is absent or zero, is added to no bucket. -/
theorem claim5_bucket_content (s : PlannerState) (now days : Int) :
    ∀ a ∈ getDayAggregates s now days,
      a.logs = bucketLogs a.date s.timeLogs ∧
      a.totalDuration = sumDur (bucketLogs a.date s.timeLogs) ∧
      a.itemCount = distinctItems (bucketLogs a.date s.timeLogs) ∧
      ∀ l ∈ s.timeLogs,
        (l ∈ a.logs ↔ durationTruthy l.duration = true ∧ dayKey l.startTime = a.date) := by
  intro a ha
  rw [getDayAggregates_eq] at ha
  obtain ⟨d, hd, rfl⟩ := List.mem_map.mp ha
  refine ⟨rfl, rfl, rfl, ?_⟩
  intro l hl
  constructor
  · intro hmem
    have h2 := (List.mem_filter.mp hmem).2
    simp at h2
    exact h2
  · rintro ⟨h1, h2⟩
    exact List.mem_filter.mpr ⟨hl, by simp [h1, h2]⟩

/-- C5, witness for `claim5_bucket_content` on a concrete store with one
positive-duration log inside a 1-day window. -/
theorem claim5_witness :
    ((⟨0, 60, 1, [posLog]⟩ : DayAggregate) ∈ getDayAggregates posState 500 1) ∧
    (⟨0, 60, 1, [posLog]⟩ : DayAggregate).logs
      = bucketLogs (⟨0, 60, 1, [posLog]⟩ : DayAggregate).date posState.timeLogs := by
  have h1 : startOfDay 500 - ((1 : Int) - 1) * msPerDay
      = (dayKey 500 - ((0 : Nat) : Int)) * msPerDay := by decide
  have hmem : (⟨0, 60, 1, [posLog]⟩ : DayAggregate) ∈ getDayAggregates posState 500 1 := by
    rw [getDayAggregates_eq, h1, getDatesBetween_aligned]
    decide
  exact ⟨hmem, (claim5_bucket_content posState 500 1 _ hmem).1⟩

end Planner
